import Mathlib

set_option autoImplicit false

namespace GameGirl

/-- Record of the game's `Choice` pydantic model (base.py): four string fields
`emoji`, `name`, `choice`, `choice_type`, all required, none with a default. -/
structure Choice where
  emoji : String
  name : String
  choice : String
  choice_type : String
deriving Repr, DecidableEq, Inhabited

/-- Python runtime values stored in the MemoryManager: strings, ints, lists,
dicts (JSON-shaped), and `Choice` model instances. -/
inductive PyVal where
  | vStr (s : String)
  | vInt (n : Int)
  | vList (xs : List PyVal)
  | vDict (fields : List (String × PyVal))
  | vChoice (c : Choice)
deriving Repr, Inhabited

/-- Python exceptions and exits that the embedded code can raise:
`exitGame` models `exit()` from `get_user_input`, `validationError` a pydantic
ValidationError naming the missing field, `indexError` a list IndexError,
`valueError` an `int()` ValueError, `typeError` attribute/type misuse, and
`eof` the case where a scripted input list runs dry. -/
inductive PyErr where
  | exitGame
  | validationError (field : String)
  | indexError
  | valueError
  | typeError
  | eof
deriving Repr, DecidableEq

/-- Python dict assignment `m[k] = v` on an insertion-ordered association
list: replace in place if the key exists, else append at the end. -/
def assocSet (m : List (String × PyVal)) (k : String) (v : PyVal) : List (String × PyVal) :=
  match m with
  | [] => [(k, v)]
  | (k0, v0) :: rest => if k0 = k then (k, v) :: rest else (k0, v0) :: assocSet rest k v

/-- Python `m.get(k, None)`: first binding of `k`, if any. -/
def assocLookup (m : List (String × PyVal)) (k : String) : Option PyVal :=
  match m with
  | [] => none
  | (k0, v0) :: rest => if k0 = k then some v0 else assocLookup rest k

/-- Python `k in m` membership test on the dict. -/
def assocHasKey (m : List (String × PyVal)) (k : String) : Bool :=
  (assocLookup m k).isSome

/-- One record of `MemoryManager.history`: the tuple
`(self.version, key, value, timestamp)` appended by `write`/`update`. -/
structure HistEntry where
  version : Nat
  key : String
  value : PyVal
  timestamp : String
deriving Repr

/-- State of `MemoryManager` (memory.py): current memory dict, history of
mutation records, and the global version counter. -/
structure MemoryManager where
  memory : List (String × PyVal)
  history : List HistEntry
  version : Nat
deriving Repr

/-- Embedding of `MemoryManager.__init__`: empty memory, empty history, version 0. -/
def MemoryManager.init : MemoryManager :=
  { memory := [], history := [], version := 0 }

/-- Embedding of `MemoryManager.read`: `self.memory.get(key, None)`. -/
def MemoryManager.read (mm : MemoryManager) (key : String) : Option PyVal :=
  assocLookup mm.memory key

/-- Embedding of `MemoryManager.write`: bump the version, set the key, and
append `(version, key, value, timestamp)` to the history. The wall-clock
timestamp `datetime.now().isoformat()` is passed in as a parameter. -/
def MemoryManager.write (mm : MemoryManager) (key : String) (value : PyVal)
    (timestamp : String) : MemoryManager :=
  { memory := assocSet mm.memory key value
    history := mm.history ++ [{ version := mm.version + 1, key := key,
                                value := value, timestamp := timestamp }]
    version := mm.version + 1 }

/-- Embedding of `MemoryManager.update`: if the key is present, perform the
same three statements as `write`; otherwise fall back to `self.write`. -/
def MemoryManager.update (mm : MemoryManager) (key : String) (value : PyVal)
    (timestamp : String) : MemoryManager :=
  if assocHasKey mm.memory key then
    { memory := assocSet mm.memory key value
      history := mm.history ++ [{ version := mm.version + 1, key := key,
                                  value := value, timestamp := timestamp }]
      version := mm.version + 1 }
  else
    mm.write key value timestamp

/-- One mutating call to the store: either `write` or `update`, with the
wall-clock timestamp of the call carried alongside. -/
inductive MemOp where
  | opWrite (key : String) (value : PyVal) (timestamp : String)
  | opUpdate (key : String) (value : PyVal) (timestamp : String)
deriving Repr

/-- Apply one mutating call to a MemoryManager state. -/
def applyOp (mm : MemoryManager) (op : MemOp) : MemoryManager :=
  match op with
  | .opWrite k v ts => mm.write k v ts
  | .opUpdate k v ts => mm.update k v ts

/-- Apply a sequence of mutating calls, oldest first. -/
def applyOps (ops : List MemOp) (mm : MemoryManager) : MemoryManager :=
  match ops with
  | [] => mm
  | op :: rest => applyOps rest (applyOp mm op)

/-- Lower-case one ASCII character, as Python `str.lower` does on ASCII. -/
def pyLowerChar (c : Char) : Char :=
  if 'A' ≤ c ∧ c ≤ 'Z' then Char.ofNat (c.toNat + 32) else c

/-- Embedding of Python `s.lower()` (ASCII range). -/
def pyLower (s : String) : String :=
  String.mk (s.data.map pyLowerChar)

/-- Embedding of `GenerativeStoryGame.get_user_input`: read a line (passed in
as `inp`); if its lower-casing is exactly `"q"`, print a farewell and call
`exit()` — modelled as the `exitGame` outcome — otherwise return the line
unchanged. No state is mutated on the quit path. -/
def getUserInput (inp : String) : Except PyErr String :=
  if pyLower inp = "q" then .error .exitGame else .ok inp

/-- Split a character list on a separator character, Python
`str.split(sep)` semantics for a one-character separator: `""` splits to
`[""]`, and adjacent separators yield empty pieces. -/
def splitOnChar (sep : Char) (cs : List Char) : List (List Char) :=
  match cs with
  | [] => [[]]
  | c :: rest =>
    let r := splitOnChar sep rest
    if c = sep then [] :: r
    else
      match r with
      | [] => [[c]]
      | g :: gs => (c :: g) :: gs

/-- Embedding of Python `s.split(sep)` for a single-character separator. -/
def pySplit (s : String) (sep : Char) : List String :=
  (splitOnChar sep s.data).map String.mk

/-- Embedding of Python `s.startswith(p)`. -/
def pyStartsWith (s p : String) : Bool :=
  p.data.isPrefixOf s.data

/-- Embedding of Python `s.endswith(p)`. -/
def pyEndsWith (s p : String) : Bool :=
  p.data.reverse.isPrefixOf s.data.reverse

/-- Value of a nonempty decimal digit string. -/
def digitsToNat (cs : List Char) : Nat :=
  cs.foldl (fun acc c => acc * 10 + (c.toNat - 48)) 0

/-- Embedding of Python `int(s)` on a plain decimal string: an optional
leading minus sign followed by at least one digit; anything else raises
`ValueError`. -/
def pyIntParse (s : String) : Except PyErr Int :=
  match s.data with
  | [] => .error .valueError
  | c :: rest =>
    if c = '-' then
      if rest ≠ [] ∧ rest.all Char.isDigit then .ok (-(digitsToNat rest : Int))
      else .error .valueError
    else
      if (c :: rest).all Char.isDigit then .ok ((digitsToNat (c :: rest) : Int))
      else .error .valueError

/-- Python list indexing `xs[i]` for a non-negative index: raises
`IndexError` past the end. -/
def pyIndex {α : Type} (xs : List α) (i : Nat) : Except PyErr α :=
  match xs.get? i with
  | some x => .ok x
  | none => .error .indexError

/-- Python `max` over a nonempty list given as head and tail. -/
def pyMax (n : Int) (rest : List Int) : Int :=
  rest.foldl max n

/-- Number extraction `int(f.split("_")[1].split(".")[0])` applied to one
file name: the text between the first underscore and the next dot, parsed
as an integer. -/
def extractNumber (f : String) : Except PyErr Int :=
  match pyIndex (pySplit f '_') 1 with
  | .error e => .error e
  | .ok piece =>
    match pyIndex (pySplit piece '.') 0 with
    | .error e => .error e
    | .ok lead => pyIntParse lead

/-- The `existing_files` list comprehension of `get_next_story_number`:
directory entries that start with `"story_"` and end with `".gsg"`. -/
def existingFiles (files : List String) : List String :=
  files.filter (fun f => pyStartsWith f "story_" && pyEndsWith f ".gsg")

/-- Embedding of `GenerativeStoryGame.get_next_story_number`: filter the
directory listing to names that start with `"story_"` and end with `".gsg"`;
if none remain, return 1; otherwise extract each remaining name's number (the
first raised exception propagating, as in the list comprehension) and return
`max(numbers) + 1` (`max` of an empty list would raise ValueError). -/
def getNextStoryNumber (files : List String) : Except PyErr Int :=
  if (existingFiles files).isEmpty then .ok 1
  else
    match (existingFiles files).mapM extractNumber with
    | .error e => .error e
    | .ok [] => .error .valueError
    | .ok (n :: rest) => .ok (pyMax n rest + 1)

/-- Matching the spec's save-file naming pattern `story_<n>.gsg`: the prefix
`story_`, then a nonempty run of digits, then the extension `.gsg` — written
from the spec's words to compare with the code's looser prefix/suffix filter. -/
def specPatternMatch (f : String) : Bool :=
  pyStartsWith f "story_" && pyEndsWith f ".gsg" &&
    (let mid := (f.data.drop 6).take (f.data.length - 10)
     decide (mid ≠ []) && mid.all Char.isDigit)

/-- Lookup in a string-valued JSON dict (association list, first match). -/
def strGet (d : List (String × String)) (k : String) : Option String :=
  match d with
  | [] => none
  | (k0, v0) :: rest => if k0 = k then some v0 else strGet rest k

/-- Python `d.get(k, "")` on a string-valued dict: empty string when the key
is missing. -/
def strGetD (d : List (String × String)) (k : String) : String :=
  (strGet d k).getD ""

/-- Pydantic construction of a `Choice`: each keyword argument may be passed
(`some`) or omitted (`none`); since every field of the model is required and
has no default, an omitted field raises a ValidationError naming it. -/
def Choice.construct (emoji name choice choice_type : Option String) :
    Except PyErr Choice :=
  match emoji with
  | none => .error (.validationError "emoji")
  | some e =>
    match name with
    | none => .error (.validationError "name")
    | some nm =>
      match choice with
      | none => .error (.validationError "choice")
      | some ch =>
        match choice_type with
        | none => .error (.validationError "choice_type")
        | some ct => .ok { emoji := e, name := nm, choice := ch, choice_type := ct }

/-- Embedding of `GenerativeStoryGame.choose_option` after the options have
been generated: read the player's line through `get_user_input`; on `"1"`,
`"2"` or `"3"` index the options list (IndexError if too short) and build a
`Choice` from its four fields with `.get(..., "")` defaults; on any other
returned line build `Choice(emoji="", name="", choice=line)` — with no
`choice_type` keyword — then write the result under `option_type`. -/
def chooseOption (mm : MemoryManager) (optionType : String)
    (options : List (List (String × String))) (inp : String) (ts : String) :
    Except PyErr (Choice × MemoryManager) :=
  match getUserInput inp with
  | .error e => .error e
  | .ok choice =>
    if choice = "1" ∨ choice = "2" ∨ choice = "3" then
      match pyIntParse choice with
      | .error e => .error e
      | .ok n =>
        match pyIndex options (n - 1).toNat with
        | .error e => .error e
        | .ok o =>
          match Choice.construct (some (strGetD o "emoji")) (some (strGetD o "name"))
              (some (strGetD o "choice")) (some (strGetD o "choice_type")) with
          | .error e => .error e
          | .ok chosen => .ok (chosen, mm.write optionType (.vChoice chosen) ts)
    else
      match Choice.construct (some "") (some "") (some choice) none with
      | .error e => .error e
      | .ok chosen => .ok (chosen, mm.write optionType (.vChoice chosen) ts)

/-- Snapshot written by `save_story_memory`: exactly the store's three
fields, serialized (pickle round-trips Python values verbatim). -/
structure SaveData where
  memory : List (String × PyVal)
  history : List HistEntry
  version : Nat
deriving Repr

/-- Embedding of `GenerativeStoryGame.save_story_memory`: dump the memory
dict, the history list and the version counter into the save file. -/
def saveStoryMemory (mm : MemoryManager) : SaveData :=
  { memory := mm.memory, history := mm.history, version := mm.version }

/-- Embedding of `GenerativeStoryGame.load_story_memory`: unpickle the file
and assign all three fields of the in-memory store from it. -/
def loadStoryMemory (d : SaveData) (mm : MemoryManager) : MemoryManager :=
  { mm with memory := d.memory, history := d.history, version := d.version }

/-- Game-side state the loop mutates: the store plus the current content of
the active save file (`None` before the first save). -/
structure GameState where
  mm : MemoryManager
  savedFile : Option SaveData
deriving Repr

/-- Action-log entry appended by `process_consequence`: turn number plus the
consequence dict's `choice` and `consequence` fields, defaulted to `""`. -/
def actionEntry (turn : Int) (cons : List (String × String)) : PyVal :=
  .vDict [("turn_sequence", .vInt turn),
          ("choice", .vStr (strGetD cons "choice")),
          ("consequence", .vStr (strGetD cons "consequence"))]

/-- Embedding of `GenerativeStoryGame.process_consequence` given the
consequence dict `cons` returned by the collaborator: append an action-log
entry to the `"actions"` list, overwrite `"prose"` and `"plot"` with the
dict's fields (empty string when missing), and persist the store to the
active save file. Reading a non-list under `"actions"` would be a Python
`AttributeError` on `.append`. -/
def processConsequence (g : GameState) (turn : Int) (cons : List (String × String))
    (ts1 ts2 ts3 : String) : Except PyErr GameState :=
  match g.mm.read "actions" with
  | some (.vList actions) =>
    let mm1 := g.mm.update "actions" (.vList (actions ++ [actionEntry turn cons])) ts1
    let mm2 := mm1.update "prose" (.vStr (strGetD cons "prose")) ts2
    let mm3 := mm2.update "plot" (.vStr (strGetD cons "plot")) ts3
    .ok { mm := mm3, savedFile := some (saveStoryMemory mm3) }
  | _ => .error .typeError

/-- Embedding of `GenerativeStoryGame.handle_player_question` applied to the
answer dict the collaborator returned: `answer.get("answer", "")`. -/
def handlePlayerQuestion (ans : List (String × String)) : String :=
  strGetD ans "answer"

/-- One scripted round of the question sub-loop: the collaborator's answer
dict, the wall-clock timestamp of the mutation, and the player's next line. -/
structure QARound where
  answerDict : List (String × String)
  timestamp : String
  nextInput : String
deriving Repr

/-- Embedding of the `ANSWERING_QUESTION` sub-loop (the `case _` branch of
`play`): answer the current question, append the Q/A pair to
`"user_questions"`, persist, then read the next line through
`get_user_input`; `"c"` breaks back to the main loop, anything else becomes
the next question. `rounds` scripts the collaborator and the player;
running out of script is `eof`. -/
def questionLoop (question : String) (rounds : List QARound) (g : GameState) :
    Except PyErr GameState :=
  match rounds with
  | [] => .error .eof
  | r :: rest =>
    match g.mm.read "user_questions" with
    | some (.vList qs) =>
      let answer := handlePlayerQuestion r.answerDict
      let entry := PyVal.vDict [("question", .vStr question), ("answer", .vStr answer)]
      let mm1 := g.mm.update "user_questions" (.vList (qs ++ [entry])) r.timestamp
      let g1 : GameState := { mm := mm1, savedFile := some (saveStoryMemory mm1) }
      match getUserInput r.nextInput with
      | .error e => .error e
      | .ok q2 => if q2 = "c" then .ok g1 else questionLoop q2 rest g1
    | _ => .error .typeError

/-- Branch the main loop takes for the line returned by `get_user_input`. -/
inductive MainAction where
  | help
  | fullStory
  | moreChoices
  | pick (n : Nat)
  | custom
  | question (q : String)
deriving Repr, DecidableEq

/-- The `match player_choice` dispatch in `play`, applied to the line that
`get_user_input` returned: sequential comparison against the case literals,
with the wildcard case treating the line as a question. -/
def classifyChoice (s : String) : MainAction :=
  if s = "h" then .help
  else if s = "f" then .fullStory
  else if s = "m" ∨ s = "" then .moreChoices
  else if s = "1" then .pick 1
  else if s = "2" then .pick 2
  else if s = "3" then .pick 3
  else if s = "4" then .custom
  else .question s

/-- Reading and dispatching one line at `AWAITING_CHOICE`: `get_user_input`
first (so a lower-cased `"q"` exits before the `match` runs), then the
dispatch. -/
def mainDispatch (inp : String) : Except PyErr MainAction :=
  match getUserInput inp with
  | .error e => .error e
  | .ok s => .ok (classifyChoice s)

/-- The numeric-pick branch of `play`:
`choices[int(player_choice) - 1].get("choice", "")`. -/
def selectChosenAction (choices : List (List (String × String)))
    (playerChoice : String) : Except PyErr String :=
  match pyIntParse playerChoice with
  | .error e => .error e
  | .ok n =>
    match pyIndex choices (n - 1).toNat with
    | .error e => .error e
    | .ok c => .ok (strGetD c "choice")

/-- Every console prompt in gamegirl.py, by call site. -/
inductive PromptSite where
  | chooseOptionPrompt
  | mainChoice
  | helpMenu
  | customAction
  | questionNext
deriving Repr, DecidableEq

/-- Which prompts go through the shared `get_user_input` primitive. The help
submenu (`case "h"` in `play`) calls the bare builtin `input` instead. -/
def usesSharedInput : PromptSite → Bool
  | .helpMenu => false
  | _ => true

/-- Reading one line at a given prompt site: the shared primitive checks for
quit, the bare `input` call returns the line unexamined. -/
def readPrompt (p : PromptSite) (inp : String) : Except PyErr String :=
  if usesSharedInput p then getUserInput inp else .ok inp

/-- State produced by one successful round of the question sub-loop before
the next line is read: the Q/A pair appended under `"user_questions"` and the
store persisted to the save file. -/
def questionStep (question : String) (ans : List (String × String)) (ts : String)
    (qs : List PyVal) (g : GameState) : GameState :=
  let mm1 := g.mm.update "user_questions" (.vList (qs ++
    [.vDict [("question", .vStr question),
             ("answer", .vStr (handlePlayerQuestion ans))]])) ts
  { mm := mm1, savedFile := some (saveStoryMemory mm1) }

/-- State produced by the success path of `process_consequence` when the
store holds the list `actions0` under `"actions"`. -/
def processConsequenceOk (g : GameState) (turn : Int) (cons : List (String × String))
    (actions0 : List PyVal) (ts1 ts2 ts3 : String) : GameState :=
  let mm1 := g.mm.update "actions" (.vList (actions0 ++ [actionEntry turn cons])) ts1
  let mm2 := mm1.update "prose" (.vStr (strGetD cons "prose")) ts2
  let mm3 := mm2.update "plot" (.vStr (strGetD cons "plot")) ts3
  { mm := mm3, savedFile := some (saveStoryMemory mm3) }

/-- Concrete three-operation run used to witness C1. -/
def demoOps : List MemOp :=
  [.opWrite "character" (.vStr "knight") "t1",
   .opUpdate "character" (.vStr "wizard") "t2",
   .opUpdate "setting" (.vStr "castle") "t3"]

/-- Concrete store holding an empty question log, used in witnesses. -/
def demoQG : GameState :=
  { mm := MemoryManager.init.write "user_questions" (.vList []) "t0",
    savedFile := none }

/-- Concrete answer dict returned by the collaborator, used in witnesses. -/
def demoAns : List (String × String) :=
  [("answer", "deep in the woods")]

/-- Concrete store as the game loop sees it after setup: empty action list,
turn 0, empty question log. -/
def demoPlayG : GameState :=
  { mm := ((MemoryManager.init.write "actions" (.vList []) "t0").write
      "turn" (.vInt 0) "t1").write "user_questions" (.vList []) "t2",
    savedFile := none }

/-- Concrete consequence dict with every field present, used in witnesses. -/
def demoCons : List (String × String) :=
  [("choice", "opened the door"), ("consequence", "a cold wind"),
   ("prose", "The door creaked open."), ("plot", "The door is open.")]

/-- Concrete single-element list of offered choices, used in witnesses. -/
def demoChoices : List (List (String × String)) :=
  [[("choice", "open the door")]]

/-- Concrete consequence dict with a mixed subset of fields: `choice`,
`consequence` and `plot` present, `prose` missing. -/
def demoConsNoProse : List (String × String) :=
  [("choice", "opened the door"), ("consequence", "a cold wind"),
   ("plot", "The door is open.")]

/-- All version fields along a history list equal the record's 1-based
position. -/
def historyVersionsOk (hs : List HistEntry) : Prop :=
  ∀ i : Nat, ∀ hi : i < hs.length, (hs.get ⟨i, hi⟩).version = i + 1

theorem MemoryManager.update_eq_write (mm : MemoryManager) (k : String) (v : PyVal)
    (ts : String) : mm.update k v ts = mm.write k v ts := by
  unfold MemoryManager.update MemoryManager.write
  split <;> rfl

theorem assocLookup_assocSet_self (m : List (String × PyVal)) (k : String) (v : PyVal) :
    assocLookup (assocSet m k v) k = some v := by
  induction m with
  | nil => simp [assocSet, assocLookup]
  | cons p rest ih =>
    obtain ⟨k0, v0⟩ := p
    by_cases h : k0 = k <;> simp [assocSet, assocLookup, h, ih]

theorem assocLookup_assocSet_other (m : List (String × PyVal)) (k k2 : String)
    (v : PyVal) (h : k2 ≠ k) : assocLookup (assocSet m k v) k2 = assocLookup m k2 := by
  have hks : ¬(k = k2) := fun hh => h hh.symm
  induction m with
  | nil => simp [assocSet, assocLookup, hks]
  | cons p rest ih =>
    obtain ⟨k0, v0⟩ := p
    by_cases h0 : k0 = k
    · subst h0
      simp [assocSet, assocLookup, hks]
    · simp [assocSet, assocLookup, h0, ih]

theorem MemoryManager.read_write_self (mm : MemoryManager) (k : String) (v : PyVal)
    (ts : String) : (mm.write k v ts).read k = some v :=
  assocLookup_assocSet_self mm.memory k v

theorem MemoryManager.read_write_other (mm : MemoryManager) (k k2 : String) (v : PyVal)
    (ts : String) (h : k2 ≠ k) : (mm.write k v ts).read k2 = mm.read k2 :=
  assocLookup_assocSet_other mm.memory k k2 v h

theorem MemoryManager.read_update_self (mm : MemoryManager) (k : String) (v : PyVal)
    (ts : String) : (mm.update k v ts).read k = some v := by
  rw [MemoryManager.update_eq_write]
  exact mm.read_write_self k v ts

theorem MemoryManager.read_update_other (mm : MemoryManager) (k k2 : String) (v : PyVal)
    (ts : String) (h : k2 ≠ k) : (mm.update k v ts).read k2 = mm.read k2 := by
  rw [MemoryManager.update_eq_write]
  exact mm.read_write_other k k2 v ts h

theorem write_invariant (mm : MemoryManager) (k : String) (v : PyVal) (ts : String)
    (hlen : mm.version = mm.history.length) (hok : historyVersionsOk mm.history) :
    (mm.write k v ts).version = (mm.write k v ts).history.length ∧
      historyVersionsOk (mm.write k v ts).history := by
  constructor
  · simp [MemoryManager.write, hlen]
  · intro i hi
    simp only [MemoryManager.write, List.length_append, List.length_cons,
      List.length_nil] at hi
    simp only [MemoryManager.write, List.get_eq_getElem]
    rcases Nat.lt_or_ge i mm.history.length with hlt | hge
    · rw [List.getElem_append_left hlt]
      exact hok i hlt
    · have hi2 : i = mm.history.length := by omega
      rw [List.getElem_concat_length _ _ _ hi2]
      simp [hlen, hi2]

theorem applyOps_invariant (ops : List MemOp) :
    ∀ mm : MemoryManager, mm.version = mm.history.length →
      historyVersionsOk mm.history →
      (applyOps ops mm).version = mm.version + ops.length ∧
      (applyOps ops mm).history.length = mm.history.length + ops.length ∧
      historyVersionsOk (applyOps ops mm).history := by
  induction ops with
  | nil =>
    intro mm hlen hok
    refine ⟨by simp [applyOps], by simp [applyOps], ?_⟩
    simpa [applyOps] using hok
  | cons op rest ih =>
    intro mm hlen hok
    obtain ⟨kk, vv, tss, hstep⟩ : ∃ kk vv tss, applyOp mm op = mm.write kk vv tss := by
      cases op with
      | opWrite k v ts => exact ⟨k, v, ts, rfl⟩
      | opUpdate k v ts => exact ⟨k, v, ts, MemoryManager.update_eq_write mm k v ts⟩
    have hw := write_invariant mm kk vv tss hlen hok
    have hrec := ih (mm.write kk vv tss) hw.1 hw.2
    have happ : applyOps (op :: rest) mm = applyOps rest (mm.write kk vv tss) := by
      simp [applyOps, hstep]
    rw [happ]
    refine ⟨?_, ?_, hrec.2.2⟩
    · rw [hrec.1]
      simp only [MemoryManager.write, List.length_cons]
      omega
    · rw [hrec.2.1]
      simp only [MemoryManager.write, List.length_append, List.length_cons,
        List.length_nil]
      omega

/-- C1: starting from a freshly constructed `MemoryManager`, after any
sequence of N mutating calls (writes and updates in any mix) the version
counter equals N, the history holds exactly N records, `version` equals
`len(history)`, and the record at 0-based position i carries version field
i + 1 (so 1-based position i has version i). -/
theorem C1_version_counts_mutations (ops : List MemOp) :
    (applyOps ops MemoryManager.init).version = ops.length ∧
    (applyOps ops MemoryManager.init).history.length = ops.length ∧
    (applyOps ops MemoryManager.init).version =
      (applyOps ops MemoryManager.init).history.length ∧
    historyVersionsOk (applyOps ops MemoryManager.init).history := by
  have h := applyOps_invariant ops MemoryManager.init rfl
    (fun i hi => by simp [MemoryManager.init] at hi)
  have h1 : (applyOps ops MemoryManager.init).version = ops.length := by
    simpa [MemoryManager.init] using h.1
  have h2 : (applyOps ops MemoryManager.init).history.length = ops.length := by
    simpa [MemoryManager.init] using h.2.1
  exact ⟨h1, h2, by omega, h.2.2⟩

/-- Witness for C1: the invariant evaluated on a concrete run of one write
and two updates. -/
theorem C1_version_counts_mutations_witness :
    (applyOps demoOps MemoryManager.init).version = 3 ∧
    (applyOps demoOps MemoryManager.init).history.length = 3 ∧
    ((applyOps demoOps MemoryManager.init).history.get ⟨1, by decide⟩).version = 2 :=
  ⟨(C1_version_counts_mutations demoOps).1,
   (C1_version_counts_mutations demoOps).2.1,
   (C1_version_counts_mutations demoOps).2.2.2 1 (by decide)⟩

/-- C6: for every store state, key and value, `update(key, value)` produces
exactly the same resulting store as `write(key, value)` — same memory dict,
same appended history record, same version — whether or not the key is
already present (the quantification over `mm` covers both cases). -/
theorem C6_update_observably_write (mm : MemoryManager) (k : String) (v : PyVal)
    (ts : String) : mm.update k v ts = mm.write k v ts := by
  unfold MemoryManager.update MemoryManager.write
  split <;> rfl

/-- C2: saving a store with `save_story_memory` and loading the saved data
with `load_story_memory` into any fresh store reproduces the original
`entries`/`history`/`version` exactly, the load replacing all three
in-memory fields. -/
theorem C2_save_load_roundtrip (mm fresh : MemoryManager) :
    loadStoryMemory (saveStoryMemory mm) fresh = mm ∧
    (loadStoryMemory (saveStoryMemory mm) fresh).memory = mm.memory ∧
    (loadStoryMemory (saveStoryMemory mm) fresh).history = mm.history ∧
    (loadStoryMemory (saveStoryMemory mm) fresh).version = mm.version :=
  ⟨rfl, rfl, rfl, rfl⟩

theorem questionLoop_cons (q : String) (r : QARound) (rounds : List QARound)
    (g : GameState) (qs : List PyVal)
    (hstore : g.mm.read "user_questions" = some (.vList qs)) :
    questionLoop q (r :: rounds) g =
      match getUserInput r.nextInput with
      | .error e => .error e
      | .ok q2 =>
        if q2 = "c" then .ok (questionStep q r.answerDict r.timestamp qs g)
        else questionLoop q2 rounds (questionStep q r.answerDict r.timestamp qs g) := by
  conv_lhs => simp only [questionLoop]
  rw [hstore]
  rfl

/-- C3 is refuted by the code: during SETUP, a free-text line at the option
prompt reaches `Choice(emoji="", name="", choice=choice)`, which omits the
required `choice_type` field of the pydantic model (no default in base.py),
so construction raises a ValidationError and nothing is written to the
store — the claim says a minimal record is stored and the call does not
fail. -/
theorem C3_free_text_raises_validation_error (mm : MemoryManager) (optionType : String)
    (options : List (List (String × String))) (t ts : String)
    (hq : pyLower t ≠ "q") (hn : ¬(t = "1" ∨ t = "2" ∨ t = "3")) :
    chooseOption mm optionType options t ts = .error (.validationError "choice_type") := by
  have hg : getUserInput t = .ok t := by rw [getUserInput, if_neg hq]
  unfold chooseOption
  rw [hg]
  dsimp only
  rw [if_neg hn]
  rfl

/-- Witness for C3's theorem: the spec's own scenario input, a custom
motivation typed at the setup prompt. -/
theorem C3_free_text_raises_validation_error_witness :
    chooseOption MemoryManager.init "motivation" [] "a lighthouse keeper" "t0"
      = .error (.validationError "choice_type") :=
  C3_free_text_raises_validation_error MemoryManager.init "motivation" []
    "a lighthouse keeper" "t0" (by decide) (by decide)

/-- C4 as stated is false: the help submenu (`case "h"` in `play`) reads its
line with the bare builtin `input`, not the shared `get_user_input`, so
entering `"q"` there is returned to the loop (and discarded) instead of
terminating the process. -/
theorem C4_counterexample_help_prompt :
    readPrompt PromptSite.helpMenu "q" = .ok "q" ∧
    readPrompt PromptSite.helpMenu "q" ≠ .error PyErr.exitGame := by
  refine ⟨rfl, fun h => ?_⟩
  exact Except.noConfusion h

/-- C4 amended: at every prompt that is read through the shared
`get_user_input` primitive — all prompts except the help submenu's raw
`input` — a line whose lower-casing is `"q"` (in particular the string
`"q"` itself) terminates the process after the farewell message, before any
state mutation (the primitive performs none). -/
theorem C4_amended_shared_prompts_quit (p : PromptSite) (inp : String)
    (hp : usesSharedInput p = true) (hq : pyLower inp = "q") :
    readPrompt p inp = .error PyErr.exitGame := by
  rw [readPrompt, if_pos hp, getUserInput, if_pos hq]

/-- Witness for the amended C4: quitting at the main choice prompt. -/
theorem C4_amended_shared_prompts_quit_witness :
    readPrompt PromptSite.mainChoice "q" = .error PyErr.exitGame :=
  C4_amended_shared_prompts_quit PromptSite.mainChoice "q" rfl rfl

/-- C5 as stated is false at input `"Q"`: it is non-empty, none of the
recognized commands, and not exactly `"q"`, yet `get_user_input` lower-cases
it and terminates the process instead of treating it as a free-form
question. -/
theorem C5_counterexample_capital_q :
    mainDispatch "Q" = .error PyErr.exitGame ∧ ("Q" : String) ≠ "q" :=
  ⟨rfl, by decide⟩

/-- C5 amended: at `AWAITING_CHOICE`, every non-empty line that is none of
the recognized commands and whose lower-casing is not `"q"` is dispatched as
a free-form question; the sub-loop appends the Q/A pair under
`"user_questions"` and persists the store, then `"c"` at the follow-up
prompt returns to the next turn while any other line (not lower-casing to
`"q"`) continues the sub-loop as the next question. -/
theorem C5_amended_question_subloop (s : String) (hne : s ≠ "") (hq : pyLower s ≠ "q")
    (hh : s ≠ "h") (hf : s ≠ "f") (hm : s ≠ "m") (h1 : s ≠ "1") (h2 : s ≠ "2")
    (h3 : s ≠ "3") (h4 : s ≠ "4") (g : GameState) (qs : List PyVal)
    (ans : List (String × String)) (ts : String)
    (hstore : g.mm.read "user_questions" = some (.vList qs)) :
    mainDispatch s = .ok (.question s) ∧
    (∀ rounds : List QARound,
      questionLoop s (⟨ans, ts, "c"⟩ :: rounds) g = .ok (questionStep s ans ts qs g)) ∧
    (questionStep s ans ts qs g).mm.read "user_questions" = some (.vList (qs ++
      [.vDict [("question", .vStr s), ("answer", .vStr (handlePlayerQuestion ans))]])) ∧
    (questionStep s ans ts qs g).savedFile =
      some (saveStoryMemory (questionStep s ans ts qs g).mm) ∧
    (∀ (next : String) (rounds : List QARound), next ≠ "c" → pyLower next ≠ "q" →
      questionLoop s (⟨ans, ts, next⟩ :: rounds) g =
        questionLoop next rounds (questionStep s ans ts qs g)) := by
  have hg : getUserInput s = .ok s := by rw [getUserInput, if_neg hq]
  refine ⟨?_, ?_, ?_, rfl, ?_⟩
  · unfold mainDispatch
    rw [hg]
    dsimp only
    rw [show classifyChoice s = MainAction.question s by
      simp [classifyChoice, hne, hh, hf, hm, h1, h2, h3, h4]]
  · intro rounds
    rw [questionLoop_cons s ⟨ans, ts, "c"⟩ rounds g qs hstore]
    rfl
  · unfold questionStep
    dsimp only
    exact MemoryManager.read_update_self _ _ _ _
  · intro next rounds hc hq2
    have hg2 : getUserInput next = .ok next := by rw [getUserInput, if_neg hq2]
    rw [questionLoop_cons s ⟨ans, ts, next⟩ rounds g qs hstore]
    rw [hg2]
    dsimp only
    rw [if_neg hc]

/-- Witness for the amended C5 on a concrete question, answer and store. -/
theorem C5_amended_question_subloop_witness :
    mainDispatch "where am I" = .ok (.question "where am I") ∧
    questionLoop "where am I" [⟨demoAns, "t1", "c"⟩] demoQG
      = .ok (questionStep "where am I" demoAns "t1" [] demoQG) ∧
    (questionStep "where am I" demoAns "t1" [] demoQG).mm.read "user_questions"
      = some (.vList [.vDict [("question", .vStr "where am I"),
          ("answer", .vStr "deep in the woods")]]) ∧
    questionLoop "where am I" [⟨demoAns, "t1", "why"⟩] demoQG
      = questionLoop "why" [] (questionStep "where am I" demoAns "t1" [] demoQG) := by
  obtain ⟨d1, d2, d3, d4, d5⟩ := C5_amended_question_subloop "where am I" (by decide)
    (by decide) (by decide) (by decide) (by decide) (by decide) (by decide)
    (by decide) (by decide) demoQG [] demoAns "t1" rfl
  exact ⟨d1, d2 [], d3, d5 "why" [] (by decide) (by decide)⟩

theorem processConsequence_ok (g : GameState) (turn : Int) (cons : List (String × String))
    (ts1 ts2 ts3 : String) (actions0 : List PyVal)
    (hact : g.mm.read "actions" = some (.vList actions0)) :
    processConsequence g turn cons ts1 ts2 ts3 =
      .ok (processConsequenceOk g turn cons actions0 ts1 ts2 ts3) := by
  unfold processConsequence processConsequenceOk
  rw [hact]

theorem questionLoop_frame (rounds : List QARound) :
    ∀ (q : String) (g g3 : GameState), questionLoop q rounds g = .ok g3 →
      (∀ k, k ≠ "user_questions" → g3.mm.read k = g.mm.read k) ∧
      g3.savedFile = some (saveStoryMemory g3.mm) := by
  induction rounds with
  | nil =>
    intro q g g3 h
    exact absurd h (by simp [questionLoop])
  | cons r rest ih =>
    intro q g g3 h
    cases hread : g.mm.read "user_questions" with
    | none =>
      unfold questionLoop at h
      rw [hread] at h
      exact absurd h (by simp)
    | some v =>
      cases v with
      | vList qs =>
        rw [questionLoop_cons q r rest g qs hread] at h
        cases hin : getUserInput r.nextInput with
        | error e =>
          rw [hin] at h
          exact absurd h (by simp)
        | ok q2 =>
          rw [hin] at h
          dsimp only at h
          by_cases hc : q2 = "c"
          · rw [if_pos hc] at h
            obtain rfl : questionStep q r.answerDict r.timestamp qs g = g3 := by
              injection h
            refine ⟨fun k hk => ?_, rfl⟩
            unfold questionStep
            dsimp only
            exact MemoryManager.read_update_other _ _ _ _ _ hk
          · rw [if_neg hc] at h
            have hrec := ih q2 (questionStep q r.answerDict r.timestamp qs g) g3 h
            refine ⟨fun k hk => ?_, hrec.2⟩
            rw [hrec.1 k hk]
            unfold questionStep
            dsimp only
            exact MemoryManager.read_update_other _ _ _ _ _ hk
      | vStr s =>
        unfold questionLoop at h
        rw [hread] at h
        exact absurd h (by simp)
      | vInt n =>
        unfold questionLoop at h
        rw [hread] at h
        exact absurd h (by simp)
      | vDict d =>
        unfold questionLoop at h
        rw [hread] at h
        exact absurd h (by simp)
      | vChoice c =>
        unfold questionLoop at h
        rw [hread] at h
        exact absurd h (by simp)

/-- C7: for every consequence record `cons` and answer record `ans` — so in
particular for any subset of fields missing — each field lands in the store
through `.get(field, "")`: the appended action-log entry carries exactly
`strGetD cons` of `choice` and `consequence`, the `"prose"` and `"plot"`
keys are overwritten with `strGetD cons` of those fields, the answer is
`strGetD ans "answer"`, and for each field independently a missing binding
makes that default the empty string. -/
theorem C7_missing_fields_default_empty (g : GameState) (turn : Int)
    (cons ans : List (String × String)) (ts1 ts2 ts3 : String) (actions0 : List PyVal)
    (hact : g.mm.read "actions" = some (.vList actions0)) :
    processConsequence g turn cons ts1 ts2 ts3 =
      .ok (processConsequenceOk g turn cons actions0 ts1 ts2 ts3) ∧
    actionEntry turn cons = .vDict [("turn_sequence", .vInt turn),
      ("choice", .vStr (strGetD cons "choice")),
      ("consequence", .vStr (strGetD cons "consequence"))] ∧
    (processConsequenceOk g turn cons actions0 ts1 ts2 ts3).mm.read "actions"
      = some (.vList (actions0 ++ [actionEntry turn cons])) ∧
    (processConsequenceOk g turn cons actions0 ts1 ts2 ts3).mm.read "prose"
      = some (.vStr (strGetD cons "prose")) ∧
    (processConsequenceOk g turn cons actions0 ts1 ts2 ts3).mm.read "plot"
      = some (.vStr (strGetD cons "plot")) ∧
    handlePlayerQuestion ans = strGetD ans "answer" ∧
    (strGet cons "choice" = none → strGetD cons "choice" = "") ∧
    (strGet cons "consequence" = none → strGetD cons "consequence" = "") ∧
    (strGet cons "prose" = none → strGetD cons "prose" = "") ∧
    (strGet cons "plot" = none → strGetD cons "plot" = "") ∧
    (strGet ans "answer" = none → strGetD ans "answer" = "") := by
  have hdef : ∀ (d : List (String × String)) (k : String),
      strGet d k = none → strGetD d k = "" := by
    intro d k h
    unfold strGetD
    rw [h]
    rfl
  refine ⟨processConsequence_ok g turn cons ts1 ts2 ts3 actions0 hact, rfl, ?_, ?_, ?_,
    rfl, hdef cons _, hdef cons _, hdef cons _, hdef cons _, hdef ans _⟩
  · unfold processConsequenceOk
    dsimp only
    rw [MemoryManager.read_update_other _ _ _ _ _ (by decide),
        MemoryManager.read_update_other _ _ _ _ _ (by decide),
        MemoryManager.read_update_self]
  · unfold processConsequenceOk
    dsimp only
    rw [MemoryManager.read_update_other _ _ _ _ _ (by decide),
        MemoryManager.read_update_self]
  · unfold processConsequenceOk
    dsimp only
    rw [MemoryManager.read_update_self]

/-- Witness for C7 on a mixed record: `choice`, `consequence` and `plot`
present, `prose` missing from the consequence dict and `answer` missing from
the answer dict — the present fields pass through and the missing ones
become the empty string. -/
theorem C7_missing_fields_default_empty_witness :
    processConsequence demoPlayG 2 demoConsNoProse "t3" "t4" "t5" =
      .ok (processConsequenceOk demoPlayG 2 demoConsNoProse [] "t3" "t4" "t5") ∧
    actionEntry 2 demoConsNoProse = .vDict [("turn_sequence", .vInt 2),
      ("choice", .vStr "opened the door"), ("consequence", .vStr "a cold wind")] ∧
    (processConsequenceOk demoPlayG 2 demoConsNoProse [] "t3" "t4" "t5").mm.read "prose"
      = some (.vStr "") ∧
    (processConsequenceOk demoPlayG 2 demoConsNoProse [] "t3" "t4" "t5").mm.read "plot"
      = some (.vStr "The door is open.") ∧
    handlePlayerQuestion [] = "" := by
  obtain ⟨w1, w2, w3, w4, w5, w6, w7, w8, w9, w10, w11⟩ :=
    C7_missing_fields_default_empty demoPlayG 2 demoConsNoProse [] "t3" "t4" "t5" [] rfl
  exact ⟨w1, w2, w4, w5, w6⟩

/-- C9: after setup, no branch of the game loop ever writes the `"turn"`
key: a successful `process_consequence` changes only `"actions"`, `"prose"`
and `"plot"` and persists the store as-is, and a successful question
sub-loop changes only `"user_questions"` and persists likewise; hence the
`"turn"` entry of every save file written during play keeps the value it had
at setup or load (0 for a fresh game), even though the local loop counter
increments every iteration. -/
theorem C9_turn_key_never_written (g g2 g3 : GameState) (turn : Int)
    (cons : List (String × String)) (ts1 ts2 ts3 q : String)
    (rounds : List QARound) :
    (processConsequence g turn cons ts1 ts2 ts3 = .ok g2 →
      (∀ k, k ≠ "actions" → k ≠ "prose" → k ≠ "plot" → g2.mm.read k = g.mm.read k) ∧
      g2.savedFile = some (saveStoryMemory g2.mm) ∧
      g2.mm.read "turn" = g.mm.read "turn" ∧
      assocLookup (saveStoryMemory g2.mm).memory "turn" = g.mm.read "turn") ∧
    (questionLoop q rounds g = .ok g3 →
      (∀ k, k ≠ "user_questions" → g3.mm.read k = g.mm.read k) ∧
      g3.savedFile = some (saveStoryMemory g3.mm) ∧
      g3.mm.read "turn" = g.mm.read "turn" ∧
      assocLookup (saveStoryMemory g3.mm).memory "turn" = g.mm.read "turn") := by
  constructor
  · intro h
    cases hread : g.mm.read "actions" with
    | none =>
      unfold processConsequence at h
      rw [hread] at h
      exact absurd h (by simp)
    | some v =>
      cases v with
      | vList actions0 =>
        rw [processConsequence_ok g turn cons ts1 ts2 ts3 actions0 hread] at h
        obtain rfl : processConsequenceOk g turn cons actions0 ts1 ts2 ts3 = g2 := by
          injection h
        have hframe : ∀ k, k ≠ "actions" → k ≠ "prose" → k ≠ "plot" →
            (processConsequenceOk g turn cons actions0 ts1 ts2 ts3).mm.read k
              = g.mm.read k := by
          intro k hk1 hk2 hk3
          unfold processConsequenceOk
          dsimp only
          rw [MemoryManager.read_update_other _ _ _ _ _ hk3,
              MemoryManager.read_update_other _ _ _ _ _ hk2,
              MemoryManager.read_update_other _ _ _ _ _ hk1]
        refine ⟨hframe, rfl, hframe "turn" (by decide) (by decide) (by decide),
          hframe "turn" (by decide) (by decide) (by decide)⟩
      | vStr s =>
        unfold processConsequence at h
        rw [hread] at h
        exact absurd h (by simp)
      | vInt n =>
        unfold processConsequence at h
        rw [hread] at h
        exact absurd h (by simp)
      | vDict d =>
        unfold processConsequence at h
        rw [hread] at h
        exact absurd h (by simp)
      | vChoice c =>
        unfold processConsequence at h
        rw [hread] at h
        exact absurd h (by simp)
  · intro h
    have hrec := questionLoop_frame rounds q g g3 h
    exact ⟨hrec.1, hrec.2, hrec.1 "turn" (by decide), hrec.1 "turn" (by decide)⟩

/-- Witness for C9 on the post-setup store: one processed consequence and
one answered question, neither touching the stored turn value. -/
theorem C9_turn_key_never_written_witness :
    (processConsequenceOk demoPlayG 1 demoCons [] "t3" "t4" "t5").mm.read "turn"
      = demoPlayG.mm.read "turn" ∧
    (processConsequenceOk demoPlayG 1 demoCons [] "t3" "t4" "t5").savedFile
      = some (saveStoryMemory (processConsequenceOk demoPlayG 1 demoCons [] "t3" "t4" "t5").mm) ∧
    (questionStep "why" demoAns "t6" [] demoPlayG).mm.read "turn"
      = demoPlayG.mm.read "turn" ∧
    assocLookup (saveStoryMemory (questionStep "why" demoAns "t6" [] demoPlayG).mm).memory
      "turn" = demoPlayG.mm.read "turn" := by
  have h := C9_turn_key_never_written demoPlayG
    (processConsequenceOk demoPlayG 1 demoCons [] "t3" "t4" "t5")
    (questionStep "why" demoAns "t6" [] demoPlayG) 1 demoCons "t3" "t4" "t5" "why"
    [⟨demoAns, "t6", "c"⟩]
  have h1 := h.1 rfl
  have h2 := h.2 rfl
  exact ⟨h1.2.2.1, h1.2.1, h2.2.2.1, h2.2.2.2⟩

theorem selectChosenAction_spec (choices : List (List (String × String))) (pc : String)
    (n : Nat) (hpc : pyIntParse pc = .ok (n : Int)) :
    (choices.length < n → selectChosenAction choices pc = .error .indexError) ∧
    (∀ hlt : n - 1 < choices.length,
      selectChosenAction choices pc = .ok (strGetD (choices.get ⟨n - 1, hlt⟩) "choice")) := by
  unfold selectChosenAction
  rw [hpc]
  dsimp only
  have htn : ((n : Int) - 1).toNat = n - 1 := by omega
  rw [htn]
  constructor
  · intro hlen
    unfold pyIndex
    rw [List.get?_eq_none.mpr (by omega)]
  · intro hlt
    unfold pyIndex
    rw [List.get?_eq_get hlt]

theorem chooseOption_index_error (mm : MemoryManager) (ot : String)
    (options : List (List (String × String))) (pc ts : String) (n : Nat)
    (hq : pyLower pc ≠ "q") (h123 : pc = "1" ∨ pc = "2" ∨ pc = "3")
    (hpc : pyIntParse pc = .ok (n : Int)) (hlen : options.length < n) :
    chooseOption mm ot options pc ts = .error .indexError := by
  have hg : getUserInput pc = .ok pc := by rw [getUserInput, if_neg hq]
  unfold chooseOption
  rw [hg]
  dsimp only
  rw [if_pos h123, hpc]
  dsimp only
  have htn : ((n : Int) - 1).toNat = n - 1 := by omega
  rw [htn]
  unfold pyIndex
  rw [List.get?_eq_none.mpr (by omega)]

/-- C10: the numeric-pick branches index the offered lists with no bounds
guard: at `AWAITING_CHOICE` picking n ∈ {1,2,3} with fewer than n offered
choices raises IndexError rather than re-prompting (same for the numeric
branch of `choose_option`), and with at least n choices the n-th offered
choice's text is the one selected and fed onward. -/
theorem C10_numeric_pick_unguarded (choices options : List (List (String × String)))
    (pc : String) (n : Nat)
    (hn : (pc = "1" ∧ n = 1) ∨ (pc = "2" ∧ n = 2) ∨ (pc = "3" ∧ n = 3)) :
    (choices.length < n → selectChosenAction choices pc = .error .indexError) ∧
    (∀ hlt : n - 1 < choices.length,
      selectChosenAction choices pc = .ok (strGetD (choices.get ⟨n - 1, hlt⟩) "choice")) ∧
    (options.length < n → ∀ (mm : MemoryManager) (ot ts : String),
      chooseOption mm ot options pc ts = .error .indexError) := by
  have hfacts : pyIntParse pc = .ok (n : Int) ∧ pyLower pc ≠ "q" ∧
      (pc = "1" ∨ pc = "2" ∨ pc = "3") := by
    rcases hn with ⟨rfl, rfl⟩ | ⟨rfl, rfl⟩ | ⟨rfl, rfl⟩ <;>
      exact ⟨rfl, by decide, by decide⟩
  obtain ⟨hpc, hq, h123⟩ := hfacts
  exact ⟨(selectChosenAction_spec choices pc n hpc).1,
         (selectChosenAction_spec choices pc n hpc).2,
         fun hlen mm ot ts => chooseOption_index_error mm ot options pc ts n hq h123 hpc hlen⟩

/-- Witness for C10: with a single offered choice, picking 2 raises
IndexError in both code paths while picking 1 selects the choice's text. -/
theorem C10_numeric_pick_unguarded_witness :
    selectChosenAction demoChoices "2" = .error .indexError ∧
    chooseOption MemoryManager.init "character" demoChoices "2" "t0"
      = .error .indexError ∧
    selectChosenAction demoChoices "1" = .ok "open the door" := by
  have h2 := C10_numeric_pick_unguarded demoChoices demoChoices "2" 2 (by decide)
  have h1 := C10_numeric_pick_unguarded demoChoices demoChoices "1" 1 (by decide)
  exact ⟨h2.1 (by decide), h2.2.2 (by decide) MemoryManager.init "character" "t0",
         h1.2.1 (by decide)⟩

/-- C8 as stated is false: `story_2.bak.gsg` does not match the pattern
`story_<n>.gsg`, so for a directory holding only that file the claim requires
a result of 1, but the scan filters merely on the `story_` prefix and `.gsg`
suffix, extracts 2 from between the first underscore and the next dot, and
returns 3. -/
theorem C8_counterexample_loose_filter :
    specPatternMatch "story_2.bak.gsg" = false ∧
    getNextStoryNumber ["story_2.bak.gsg"] = .ok 3 ∧
    getNextStoryNumber ["story_2.bak.gsg"] ≠ .ok 1 := by
  refine ⟨rfl, rfl, fun h => ?_⟩
  injection h with h2
  exact absurd h2 (by decide)

/-- C8 amended: the scan keys on the `story_` prefix and `.gsg` suffix
rather than the full `story_<n>.gsg` pattern: when no file has that prefix
and suffix the result is 1; otherwise, when extracting each such file's
embedded number succeeds, the result is their maximum plus one; on the
spec's instance `story_1.gsg`, `story_3.gsg` the next number is 4. -/
theorem C8_amended_next_number (files : List String) :
    (existingFiles files = [] → getNextStoryNumber files = .ok 1) ∧
    (∀ (n : Int) (rest : List Int),
      (existingFiles files).mapM extractNumber = .ok (n :: rest) →
      getNextStoryNumber files = .ok (pyMax n rest + 1)) ∧
    getNextStoryNumber ["story_1.gsg", "story_3.gsg"] = .ok 4 := by
  refine ⟨?_, ?_, rfl⟩
  · intro h
    unfold getNextStoryNumber
    rw [h]
    rfl
  · intro n rest hm
    unfold getNextStoryNumber
    have hne : (existingFiles files).isEmpty = false := by
      cases hex : existingFiles files with
      | nil =>
        rw [hex] at hm
        exact absurd hm (by simp [List.mapM, List.mapM.loop, pure, Except.pure])
      | cons a l => simp
    rw [hne, hm]
    rfl

/-- Witness for the amended C8: the empty directory and the spec's concrete
two-file directory. -/
theorem C8_amended_next_number_witness :
    getNextStoryNumber [] = .ok 1 ∧
    getNextStoryNumber ["story_1.gsg", "story_3.gsg"] = .ok (pyMax 1 [3] + 1) := by
  refine ⟨(C8_amended_next_number []).1 rfl, ?_⟩
  exact (C8_amended_next_number ["story_1.gsg", "story_3.gsg"]).2.1 1 [3] rfl

end GameGirl
